import Mathlib

set_option maxHeartbeats 1000000

/-! Verification development for the tradestat pipeline core.
Dynamic payload values, the Process and Normalize transform stages,
the HS-code progress ledger, the chunk worker, the chunker, the retry
manager, the browser pool and the request throttler are embedded from
the source, and the specification's claims are settled as theorems. -/

/-- Python str.strip(): whitespace removed from both ends. -/
def pyStrip (s : String) : String :=
  String.mk (((s.data.dropWhile Char.isWhitespace).reverse.dropWhile Char.isWhitespace).reverse)

/-- Python s.replace(",", ""): every comma removed. -/
def removeCommas (s : String) : String :=
  String.mk (s.data.filter (fun c => c != ','))

/-- Python s[:n] on a string: the first n code points. -/
def pyTake (s : String) (n : Nat) : String :=
  String.mk (s.data.take n)

/-- Dynamic Python-style values as carried by the scraper payloads:
None, strings, integers, lists and insertion-ordered dicts. -/
inductive PyVal where
  | vnone : PyVal
  | vstr : String → PyVal
  | vint : Int → PyVal
  | vlist : List PyVal → PyVal
  | vdict : List (String × PyVal) → PyVal

/-- Dict key lookup, first match (Python dict keys are unique). -/
def dlookup (kvs : List (String × PyVal)) (k : String) : Option PyVal :=
  (kvs.find? (fun p => p.1 == k)).map (fun p => p.2)

/-- Python d.get(k, default). -/
def pyGetD (kvs : List (String × PyVal)) (k : String) (d : PyVal) : PyVal :=
  (dlookup kvs k).getD d

/-- Python truthiness of a value. -/
def truthy : PyVal → Bool
  | .vnone => false
  | .vstr s => !s.isEmpty
  | .vint n => n != 0
  | .vlist xs => !xs.isEmpty
  | .vdict kvs => !kvs.isEmpty

/-- Matcher for the regular expression -?digits(.digits)? anchored at
both ends, as used by Processor.clean_rows. -/
def isNumericChars (cs : List Char) : Bool :=
  let cs2 := match cs with
    | '-' :: rest => rest
    | other => other
  let p := cs2.span Char.isDigit
  match p.1, p.2 with
  | [], _ => false
  | _ :: _, [] => true
  | _ :: _, '.' :: rest =>
    let q := rest.span Char.isDigit
    match q.1, q.2 with
    | _ :: _, [] => true
    | _, _ => false
  | _, _ => false

def isNumericStr (s : String) : Bool := isNumericChars s.toList

/-- Processor.clean_rows inner value cleaning: strings are stripped,
and stripped strings that are numeric after comma removal have their
commas removed. Non-strings pass through. -/
def cleanVal (v : PyVal) : PyVal :=
  match v with
  | .vstr s =>
    let s1 := pyStrip s
    if isNumericStr (removeCommas s1) then .vstr (removeCommas s1) else .vstr s1
  | other => other

/-- One row of Processor.clean_rows: r.items() needs a mapping. -/
def cleanRow (r : PyVal) : Except String PyVal :=
  match r with
  | .vdict kvs => .ok (.vdict (kvs.map (fun p => (p.1, cleanVal p.2))))
  | _ => .error "AttributeError: row has no items"

/-- Processor.clean_rows: falsy rows give an empty list, otherwise each
row is cleaned. -/
def clean_rows (rows : PyVal) : Except String PyVal :=
  if truthy rows = false then .ok (.vlist [])
  else
    match rows with
    | .vlist rs => do
        let cs ← rs.mapM cleanRow
        Except.ok (.vlist cs)
    | _ => .error "TypeError: rows are not iterable mappings"

/-- Processor.clean_summary inner clean(x): None passes, strings have
commas removed then are stripped, anything else has no replace. -/
def cleanCell (x : PyVal) : Except String PyVal :=
  match x with
  | .vnone => .ok .vnone
  | .vstr s => .ok (.vstr (pyStrip (removeCommas s)))
  | _ => .error "AttributeError: value has no replace"

/-- One summary group of Processor.clean_summary: the group key must be
present and hold a mapping, whose three known cells are cleaned. -/
def cleanSummaryGroup (kvs : List (String × PyVal)) (key : String) : Except String PyVal := do
  match dlookup kvs key with
  | some (.vdict sub) => do
      let prev ← cleanCell (pyGetD sub "2023_24" .vnone)
      let curr ← cleanCell (pyGetD sub "2024_25" .vnone)
      let growth ← cleanCell (pyGetD sub "growth_percent" .vnone)
      Except.ok (.vdict [("prev", prev), ("curr", curr), ("growth", growth)])
  | some _ => .error "AttributeError: summary group has no get"
  | _ => .error "KeyError: summary group missing"

/-- Processor.clean_summary: falsy summary gives None, otherwise the
three fixed groups are cleaned. -/
def clean_summary (summary : PyVal) : Except String PyVal :=
  if truthy summary = false then .ok .vnone
  else
    match summary with
    | .vdict kvs => do
        let g1 ← cleanSummaryGroup kvs "total_exports_selected_countries"
        let g2 ← cleanSummaryGroup kvs "india_total_exports"
        let g3 ← cleanSummaryGroup kvs "share_of_india_exports_percent"
        Except.ok (.vdict [("total_exports_selected_countries", g1),
          ("india_total_exports", g2),
          ("share_of_india_exports_percent", g3)])
    | _ => .error "TypeError: summary is not subscriptable"

/-- Processor.parse_hs: prefix slices of the HS code string. -/
def parse_hs (hs : String) : PyVal :=
  .vdict [("hs8", .vstr hs),
    ("sub_heading", .vstr (pyTake hs 6)),
    ("heading", .vstr (pyTake hs 4)),
    ("chapter", .vstr (pyTake hs 2))]

/-- One year block of Processor.process_raw_payload. -/
def processYearBlock (block : PyVal) : Except String PyVal :=
  match block with
  | .vdict bkv => do
      let summ ← clean_summary (pyGetD bkv "summary" .vnone)
      let rows ← clean_rows (pyGetD bkv "partner_countries" .vnone)
      Except.ok (.vdict [("product_label", pyGetD bkv "product_label" .vnone),
        ("summary", summ),
        ("partner_countries", rows),
        ("total_pages", pyGetD bkv "total_pages" .vnone)])
  | _ => .error "AttributeError: year block has no get"

/-- The constant source block of the Process stage. -/
def sourceInfo : PyVal :=
  .vdict [("site", .vstr "https://tradestat.commerce.gov.in"),
    ("dataset", .vstr "Commodity-wise all Countries"),
    ("country", .vstr "India")]

/-- Processor.process_raw_payload. The generated uuid and the IST
processing timestamp are nondeterministic in the source and are passed
in as parameters. Every path on which Python raises returns an error. -/
def process_raw_payload (recordId nowIst : String) (raw : PyVal) : Except String PyVal := do
  let rkv ← match raw with
    | .vdict rkv => Except.ok rkv
    | _ => Except.error "TypeError: raw payload is not a dict"
  let mdv ← match dlookup rkv "metadata" with
    | some v => Except.ok v
    | _ => Except.error "ValueError: Invalid raw payload: missing hs_code"
  let mkv ← match mdv with
    | .vdict mkv => Except.ok mkv
    | _ => Except.error "TypeError: metadata is not a dict"
  let hsv ← match dlookup mkv "hs_code" with
    | some v => Except.ok v
    | _ => Except.error "ValueError: Invalid raw payload: missing hs_code"
  let dbyv ← match dlookup rkv "data_by_year" with
    | some v => Except.ok v
    | _ => Except.error "ValueError: Invalid raw payload: missing data_by_year"
  let hs ← match hsv with
    | .vstr s => Except.ok s
    | _ => Except.error "TypeError: hs_code is not a string"
  let ykv ← match dbyv with
    | .vdict ykv => Except.ok ykv
    | _ => Except.error "AttributeError: data_by_year has no items"
  let years ← ykv.mapM (fun p => do
      let pb ← processYearBlock p.2
      Except.ok (p.1, pb))
  Except.ok (.vdict [
    ("record_id", .vstr recordId),
    ("schema_version", .vstr "v1"),
    ("pipeline_version", .vstr "1.0.0"),
    ("processed_at_ist", .vstr nowIst),
    ("metadata", .vdict mkv),
    ("hs", parse_hs hs),
    ("trade_type", .vstr "EXPORT"),
    ("frequency", .vstr "ANNUAL"),
    ("source", sourceInfo),
    ("years", .vdict years)])

/-- Python dict-literal insertion: an existing key is updated in place,
a new key is appended. -/
def dinsert (kvs : List (String × PyVal)) (k : String) (v : PyVal) : List (String × PyVal) :=
  if kvs.any (fun p => p.1 == k) then kvs.map (fun p => if p.1 == k then (k, v) else p)
  else kvs ++ [(k, v)]

def asDict (v : PyVal) (msg : String) : Except String (List (String × PyVal)) :=
  match v with
  | .vdict kvs => .ok kvs
  | _ => .error msg

def asList (v : PyVal) (msg : String) : Except String (List PyVal) :=
  match v with
  | .vlist xs => .ok xs
  | _ => .error msg

/-- One flattened row of Normalizer.normalize_processed_payload: the
metadata, hs and summary blocks are denormalized onto every partner
row, with the row's own keys merged by Python dict-literal rules. -/
def flatRow (metadata hs : PyVal) (year : String) (summary : PyVal) (row : PyVal) : Except String PyVal := do
  let mk ← asDict metadata "AttributeError: metadata has no get"
  let hk ← asDict hs "AttributeError: hs has no get"
  let rk ← asDict row "TypeError: row is not a mapping"
  let sk ← asDict summary "AttributeError: summary has no get"
  let s1 ← asDict (pyGetD sk "total_exports_selected_countries" (.vdict [])) "AttributeError: summary group has no get"
  let s2 ← asDict (pyGetD sk "india_total_exports" (.vdict [])) "AttributeError: summary group has no get"
  let s3 ← asDict (pyGetD sk "share_of_india_exports_percent" (.vdict [])) "AttributeError: summary group has no get"
  let base := [
    ("pipeline_version", pyGetD mk "pipeline_version" .vnone),
    ("scrape_date_ist", pyGetD mk "scrape_date_ist" .vnone),
    ("scrape_time_ist", pyGetD mk "scrape_time_ist" .vnone),
    ("scrape_duration_sec", pyGetD mk "scrape_duration_sec" .vnone),
    ("site_url", pyGetD mk "site_url" .vnone),
    ("trade_type", pyGetD mk "trade_type" .vnone),
    ("data_frequency", pyGetD mk "data_frequency" .vnone),
    ("currency", pyGetD mk "currency" .vnone),
    ("hs_code", pyGetD hk "hs_code" .vnone),
    ("chapter", pyGetD hk "chapter" .vnone),
    ("heading", pyGetD hk "heading" .vnone),
    ("sub_heading", pyGetD hk "sub_heading" .vnone),
    ("hs_8", pyGetD hk "hs_8" .vnone),
    ("year", PyVal.vstr year)]
  let withRow := rk.foldl (fun acc p => dinsert acc p.1 p.2) base
  let sfields := [
    ("summary_total_selected_prev", pyGetD s1 "prev" .vnone),
    ("summary_total_selected_curr", pyGetD s1 "curr" .vnone),
    ("summary_total_selected_growth", pyGetD s1 "growth" .vnone),
    ("summary_india_prev", pyGetD s2 "prev" .vnone),
    ("summary_india_curr", pyGetD s2 "curr" .vnone),
    ("summary_india_growth", pyGetD s2 "growth" .vnone),
    ("summary_share_prev", pyGetD s3 "prev" .vnone),
    ("summary_share_curr", pyGetD s3 "curr" .vnone)]
  Except.ok (.vdict (sfields.foldl (fun acc p => dinsert acc p.1 p.2) withRow))

/-- Normalizer.normalize_processed_payload: reads the metadata, hs and
data_by_year keys of the processed dict (each defaulting to an empty
dict when absent) and emits one flat row per year and partner row. -/
def normalize_processed_payload (processed : PyVal) : Except String (List PyVal) := do
  let pk ← asDict processed "AttributeError: processed has no get"
  let metadata := pyGetD pk "metadata" (.vdict [])
  let hs := pyGetD pk "hs" (.vdict [])
  let dby := pyGetD pk "data_by_year" (.vdict [])
  let ykv ← asDict dby "AttributeError: data_by_year has no items"
  let rowLists ← ykv.mapM (fun yp => do
      let bk ← asDict yp.2 "AttributeError: year block has no get"
      let prs := pyGetD bk "partner_countries" (.vlist [])
      let summ := pyGetD bk "summary" (.vdict [])
      let rows ← asList prs "TypeError: partner rows are not a list"
      rows.mapM (fun row => flatRow metadata hs yp.1 summ row))
  Except.ok rowLists.flatten

/-! ### Progress ledger (utils/hs_code_db.py) -/

/-- One row of the hs_codes table. The status column is the overall
status; timestamps are abstract ticks. -/
structure LedgerEntry where
  status : String
  export_status : String
  import_status : String
  last_scraped_at : Option Nat
  export_scraped_at : Option Nat
  import_scraped_at : Option Nat
  error_count : Nat
  last_error : Option String
deriving DecidableEq

/-- The schema defaults of a freshly inserted row. -/
def defaultEntry : LedgerEntry :=
  LedgerEntry.mk "pending" "pending" "pending" Option.none Option.none Option.none 0 Option.none

/-- mark_completed row update: overall and both mode statuses. -/
def markCompletedE (now : Nat) (e : LedgerEntry) : LedgerEntry :=
  LedgerEntry.mk "completed" "completed" "completed" (some now)
    e.export_scraped_at e.import_scraped_at e.error_count e.last_error

/-- mark_export_completed row update. -/
def markExportCompletedE (now : Nat) (e : LedgerEntry) : LedgerEntry :=
  LedgerEntry.mk e.status "completed" e.import_status e.last_scraped_at
    (some now) e.import_scraped_at e.error_count e.last_error

/-- mark_import_completed row update. -/
def markImportCompletedE (now : Nat) (e : LedgerEntry) : LedgerEntry :=
  LedgerEntry.mk e.status e.export_status "completed" e.last_scraped_at
    e.export_scraped_at (some now) e.error_count e.last_error

/-- The two trade modes of the mark_failed trade_mode argument. -/
inductive TradeMode where
  | export : TradeMode
  | importMode : TradeMode
deriving DecidableEq

/-- mark_failed row update: the export branch, the import branch, or
the overall branch, each bumping error_count and setting last_error. -/
def markFailedE (err : String) (mode : Option TradeMode) (e : LedgerEntry) : LedgerEntry :=
  match mode with
  | some TradeMode.export =>
      LedgerEntry.mk e.status "failed" e.import_status e.last_scraped_at
        e.export_scraped_at e.import_scraped_at (e.error_count + 1) (some err)
  | some TradeMode.importMode =>
      LedgerEntry.mk e.status e.export_status "failed" e.last_scraped_at
        e.export_scraped_at e.import_scraped_at (e.error_count + 1) (some err)
  | Option.none =>
      LedgerEntry.mk "failed" e.export_status e.import_status e.last_scraped_at
        e.export_scraped_at e.import_scraped_at (e.error_count + 1) (some err)

/-- The hs_codes table, keyed by code. -/
abbrev HSDB : Type := List (String × LedgerEntry)

/-- SELECT of the row keyed by code. -/
def dbLookup : HSDB → String → Option LedgerEntry
  | [], _ => Option.none
  | p :: rest, code => if p.1 == code then some p.2 else dbLookup rest code

/-- UPDATE ... WHERE hs_code = code. -/
def updateRow (db : HSDB) (code : String) (f : LedgerEntry → LedgerEntry) : HSDB :=
  db.map (fun p => if p.1 == code then (p.1, f p.2) else p)

/-- bulk_insert with INSERT OR IGNORE: existing keys are untouched,
new keys get the schema defaults. -/
def bulkInsert (db : HSDB) (codes : List String) : HSDB :=
  codes.foldl (fun d c => if (dbLookup d c).isSome then d else d ++ [(c, defaultEntry)]) db

/-- The mutating ledger operations of HSCodeDatabase. -/
inductive LOp where
  | bulkIns : List String → LOp
  | markCompleted : String → Nat → LOp
  | markExportCompleted : String → Nat → LOp
  | markImportCompleted : String → Nat → LOp
  | markFailed : String → String → Option TradeMode → LOp

def applyOp (db : HSDB) : LOp → HSDB
  | LOp.bulkIns cs => bulkInsert db cs
  | LOp.markCompleted c n => updateRow db c (markCompletedE n)
  | LOp.markExportCompleted c n => updateRow db c (markExportCompletedE n)
  | LOp.markImportCompleted c n => updateRow db c (markImportCompletedE n)
  | LOp.markFailed c err m => updateRow db c (markFailedE err m)

def applyOps (db : HSDB) (ops : List LOp) : HSDB := ops.foldl applyOp db

/-- A ledger state reachable from the empty table through the
HSCodeDatabase operations. -/
def ReachableDB (db : HSDB) : Prop := ∃ ops, db = applyOps ([] : HSDB) ops

/-! ### Chunk worker (pipeline/worker.py, process_chunk per item)

The scrape of each mode either yields a usable result or exhausts its
retries (returning None); the transform chain for a present mode
either finishes or raises with a message. Both outcomes are external
to the ledger logic and enter as parameters. -/

/-- The mark_failed message of process_chunk when both scrapes fail. -/
def scrapeFailMsg : String := "Failed to scrape both export and import after retries"

/-- The ledger writes process_chunk issues for one HS code, given
whether the export and import scrapes produced a result and whether
each present mode's transform chain raised (some err) or not. Modes
with no result are skipped; a present mode is marked completed or
failed by its transform outcome; mark_completed fires exactly when
both modes had scrape results. -/
def processItemOps (code : String) (now : Nat) (exportOk importOk : Bool)
    (tExport tImport : Option String) : List LOp :=
  if !exportOk && !importOk then [LOp.markFailed code scrapeFailMsg Option.none]
  else
    (if exportOk then
      match tExport with
      | Option.none => [LOp.markExportCompleted code now]
      | some err => [LOp.markFailed code err (some TradeMode.export)]
     else [])
    ++ (if importOk then
      match tImport with
      | Option.none => [LOp.markImportCompleted code now]
      | some err => [LOp.markFailed code err (some TradeMode.importMode)]
     else [])
    ++ (if exportOk && importOk then [LOp.markCompleted code now] else [])

/-! ### Chunker (pipeline/chunker.py) -/

/-- The slicing loop of chunk_list for a positive size s: data[i:i+s]
for i = 0, s, 2s, ... -/
def chunksNat {α : Type} (s : Nat) : List α → List (List α)
  | [] => []
  | x :: xs => (x :: xs).take s :: chunksNat s (xs.drop (s - 1))
termination_by l => l.length
decreasing_by
  simp only [List.length_drop, List.length_cons]
  omega

/-- chunk_list: raises for a non-positive chunk size, otherwise slices
the list into chunks of the given size. -/
def chunk_list {α : Type} (data : List α) (chunk_size : Int) : Except String (List (List α)) :=
  if chunk_size ≤ 0 then .error "chunk_size must be > 0"
  else .ok (chunksNat chunk_size.toNat data)

/-! ### Retry manager (utils/retry_manager.py) -/

/-- RetryConfig. Delays are rationals; jitter's random draw enters
get_delay as an explicit parameter. -/
structure RetryConfig where
  max_retries : Nat
  initial_delay : ℚ
  max_delay : ℚ
  exponential_base : ℚ
  jitter : Bool

/-- RetryConfig.get_delay for a 0-indexed attempt, with r the value of
random.random() in [0, 1). -/
def get_delay (cfg : RetryConfig) (attempt : Nat) (r : ℚ) : ℚ :=
  let d := cfg.initial_delay * cfg.exponential_base ^ attempt
  let d := min d cfg.max_delay
  if cfg.jitter then d * (1/2 + r) else d

/-- The retry loop shared by retry_async and retry_sync: the function
is modelled as its result per attempt index; fuel is the number of
loop iterations left, starting at max_retries + 1. The pair returned
is the outcome together with the number of invocations made; the
impossible fall-through after the loop re-raises the carried last
exception (error value none never occurs from attempt 0). At the last
attempt index the exception is re-raised. All exceptions are treated
as retriable, matching the default and the worker's catch-all tuple. -/
def retryAux {E A : Type} (f : Nat → Except E A) (maxRetries : Nat)
    (lastExc : Option E) : Nat → Nat → Except (Option E) A × Nat
  | _, 0 => (Except.error lastExc, 0)
  | attempt, fuel + 1 =>
    match f attempt with
    | Except.ok a => (Except.ok a, 1)
    | Except.error e =>
      if attempt = maxRetries then (Except.error (some e), 1)
      else
        let p := retryAux f maxRetries (some e) (attempt + 1) fuel
        (p.1, p.2 + 1)

/-- retry_async with a RetryConfig allowing max_retries retries. -/
def retry_async {E A : Type} (f : Nat → Except E A) (maxRetries : Nat) :
    Except (Option E) A × Nat :=
  retryAux f maxRetries Option.none 0 (maxRetries + 1)

/-- retry_sync, identical control flow to retry_async. -/
def retry_sync {E A : Type} (f : Nat → Except E A) (maxRetries : Nat) :
    Except (Option E) A × Nat :=
  retryAux f maxRetries Option.none 0 (maxRetries + 1)

/-! ### Browser pool (scraper/browser_pool.py)

The pool's queue of available browsers, the list of created browsers
and the outstanding leases form the state; get_browser, return_browser
and the acquire timeout are the transitions. -/

structure PoolState where
  created : Nat
  available : Nat
  leased : Nat
deriving DecidableEq

/-- BrowserPool.initialize: creates exactly pool_size browsers and
puts each into the available queue. -/
def initPool (n : Nat) : PoolState := PoolState.mk n n 0

inductive PoolEvent where
  | acquire : PoolEvent
  | release : PoolEvent
  | acquireTimeout : PoolEvent

/-- One step of the pool: get_browser succeeds only when the available
queue is non-empty; return_browser requires an outstanding lease
(scoped acquisition returns each lease exactly once); a get_browser
whose timeout elapses while the queue is empty raises and leaves the
state unchanged. -/
inductive PoolStep (n : Nat) : PoolState → PoolEvent → PoolState → Prop
  | acquire (s : PoolState) (h : 0 < s.available) :
      PoolStep n s PoolEvent.acquire (PoolState.mk s.created (s.available - 1) (s.leased + 1))
  | release (s : PoolState) (h : 0 < s.leased) :
      PoolStep n s PoolEvent.release (PoolState.mk s.created (s.available + 1) (s.leased - 1))
  | timeout (s : PoolState) (h : s.available = 0) :
      PoolStep n s PoolEvent.acquireTimeout s

/-- Pool states reachable from the initialized pool. -/
inductive PoolReachable (n : Nat) : PoolState → Prop
  | init : PoolReachable n (initPool n)
  | step {s s' : PoolState} {e : PoolEvent} :
      PoolReachable n s → PoolStep n s e s' → PoolReachable n s'

/-- get_browser as a function of the state at the moment the timeout
would expire: a browser if one is available, the raised timeout error
otherwise. -/
def get_browser (s : PoolState) : Except String PoolState :=
  if 0 < s.available then .ok (PoolState.mk s.created (s.available - 1) (s.leased + 1))
  else .error "TimeoutError: pool exhausted"

/-! ### Request throttler (utils/request_throttler.py)

RequestThrottler.wait holds the single asyncio lock for its whole
body, including the throttle sleep, so calls execute one after the
other in lock order. A call is its arrival time, its host, and the
uniform draw from [min_delay, max_delay] used as required_delay. -/

structure ThrottleCall where
  time : ℚ
  host : String
  required : ℚ

/-- Point update of the last-request-time map. -/
def updMap (f : String → ℚ) (k : String) (v : ℚ) : String → ℚ :=
  fun x => if x = k then v else f x

/-- Serialized execution of a list of wait calls: lockFree is when the
lock becomes free, lastMap the per-host last-request times (the
defaultdict starts at 0). Each call starts at the later of its arrival
and the lock becoming free, sleeps the positive part of its required
delay minus the elapsed time since the host's recorded last request,
then records its return time for its host. Returns (host, return
time) per call. -/
def runCalls : List ThrottleCall → ℚ → (String → ℚ) → List (String × ℚ)
  | [], _, _ => []
  | c :: rest, lockFree, lastMap =>
    let start := if c.time ≤ lockFree then lockFree else c.time
    let elapsed := start - lastMap c.host
    let ret := if elapsed < c.required then start + (c.required - elapsed) else start
    (c.host, ret) :: runCalls rest ret (updMap lastMap c.host ret)

/-- Spacing predicate on the output trace: successive return times for
host h (starting from an optional previous return) are at least dmin
apart. -/
def gapsOK (dmin : ℚ) (h : String) : Option ℚ → List (String × ℚ) → Prop
  | _, [] => True
  | prev, (x, r) :: rest =>
    if x = h then
      (match prev with
       | some p => p + dmin ≤ r
       | Option.none => True) ∧ gapsOK dmin h (some r) rest
    else gapsOK dmin h prev rest

/-! ### Concrete inputs used by the claims -/

/-- Key lookup on a dict value. -/
def pv_get (p : PyVal) (k : String) : Option PyVal :=
  match p with
  | .vdict kvs => dlookup kvs k
  | _ => Option.none

/-- All partner-row cell values under the years key of a processed
record, in order. -/
def collectValues (p : PyVal) : List PyVal :=
  match pv_get p "years" with
  | some (.vdict ykv) =>
    (ykv.map (fun yp =>
      match yp.2 with
      | .vdict bk =>
        match dlookup bk "partner_countries" with
        | some (.vlist rows) => rows.map (fun r => (pv_get r "value").getD .vnone)
        | _ => []
      | _ => [])).flatten
  | _ => []

/-- A partner-country row with a thousands-separated numeric value. -/
def c3Row (country value : String) : PyVal :=
  .vdict [("Country", .vstr country), ("value", .vstr value)]

/-- One year block of the C3 scenario: three partner rows, each with
the numeric string 12,345.6. -/
def c3YearBlock : PyVal :=
  .vdict [("product_label", .vstr "T-SHIRTS"),
    ("partner_countries", .vlist [c3Row "USA" "12,345.6", c3Row "UK" "12,345.6", c3Row "UAE" "12,345.6"]),
    ("summary", .vnone),
    ("total_pages", .vint 1)]

/-- The C3 scenario raw payload: code 61091000, export mode, two years
with three partner rows each. -/
def c3Raw : PyVal :=
  .vdict [("status", .vstr "SUCCESS"),
    ("metadata", .vdict [("hs_code", .vstr "61091000"), ("trade_mode", .vstr "export"),
      ("pipeline_version", .vstr "v1")]),
    ("data_by_year", .vdict [("2023-2024", c3YearBlock), ("2024-2025", c3YearBlock)])]

/-- A minimal import-mode raw payload. -/
def c10Raw : PyVal :=
  .vdict [("status", .vstr "SUCCESS"),
    ("metadata", .vdict [("hs_code", .vstr "61091000"), ("trade_mode", .vstr "import")]),
    ("data_by_year", .vdict [])]

/-- The processed record the Process stage yields for c10Raw. -/
def c10Processed : PyVal :=
  .vdict [("record_id", .vstr "R"),
    ("schema_version", .vstr "v1"),
    ("pipeline_version", .vstr "1.0.0"),
    ("processed_at_ist", .vstr "T"),
    ("metadata", .vdict [("hs_code", .vstr "61091000"), ("trade_mode", .vstr "import")]),
    ("hs", parse_hs "61091000"),
    ("trade_type", .vstr "EXPORT"),
    ("frequency", .vstr "ANNUAL"),
    ("source", sourceInfo),
    ("years", .vdict [])]

/-- Ledger reached by inserting a code, then marking its export and
its import completed, with no mark_completed call. -/
def c2DB : HSDB :=
  applyOps ([] : HSDB)
    [LOp.bulkIns ["61091000"], LOp.markExportCompleted "61091000" 10,
     LOp.markImportCompleted "61091000" 20]

/-- Ledger after process_chunk handles code 61091000 with the export
scrape succeeding (transforms fine) and the import scrape exhausting
its retries, starting from a freshly inserted row. -/
def c1DB : HSDB :=
  applyOps (applyOps ([] : HSDB) [LOp.bulkIns ["61091000"]])
    (processItemOps "61091000" 7 true false Option.none Option.none)

/-- A jittered retry configuration whose pre-jitter delay is zero. -/
def c5cfg : RetryConfig := RetryConfig.mk 3 0 30 2 true

/-- The scraping preset: 3 retries, 2s initial delay, 30s cap. -/
def c5wcfg : RetryConfig := RetryConfig.mk 3 2 30 2 true

/-- Throttler trace: host A waits at 10 (no sleep needed) and again at
11 (sleeping until 15 while holding the lock); host B's wait arrives
at 12 during that sleep. -/
def c8Calls : List ThrottleCall :=
  [ThrottleCall.mk 10 "A" 5, ThrottleCall.mk 11 "A" 5, ThrottleCall.mk 12 "B" 2]

/-- The same trace with host A's waits removed. -/
def c8CallsB : List ThrottleCall := [ThrottleCall.mk 12 "B" 2]


/-! ## Helper lemmas -/

theorem dbLookup_updateRow_self (c : String) (f : LedgerEntry → LedgerEntry) :
    ∀ db : HSDB, dbLookup (updateRow db c f) c = (dbLookup db c).map f := by
  intro db
  induction db with
  | nil => rfl
  | cons p rest ih =>
    by_cases h : (p.1 == c) = true
    · simp [updateRow, dbLookup, h] at *
    · simp [updateRow, dbLookup, h] at *
      exact ih

theorem dbLookup_updateRow_other (c y : String) (f : LedgerEntry → LedgerEntry) (hy : y ≠ c) :
    ∀ db : HSDB, dbLookup (updateRow db c f) y = dbLookup db y := by
  intro db
  induction db with
  | nil => rfl
  | cons p rest ih =>
    by_cases h : (p.1 == c) = true
    · have hpc : p.1 = c := by simpa using h
      have hpy : (p.1 == y) = false := by
        rw [hpc]
        simpa using fun hcy => hy hcy.symm
      simp [updateRow, dbLookup, h, hpy] at *
      exact ih
    · by_cases h2 : (p.1 == y) = true
      · simp [updateRow, dbLookup, h, h2]
      · simp [updateRow, dbLookup, h, h2] at *
        exact ih

theorem dbLookup_append_left (X : String) (e : LedgerEntry) (l : HSDB) :
    ∀ db : HSDB, dbLookup db X = some e → dbLookup (db ++ l) X = some e := by
  intro db
  induction db with
  | nil => intro h; cases h
  | cons p rest ih =>
    intro h
    by_cases hp : (p.1 == X) = true
    · simpa [dbLookup, hp] using by simpa [dbLookup, hp] using h
    · simp [dbLookup, hp] at h ⊢
      exact ih h

theorem dbLookup_bulkInsert (X : String) (e : LedgerEntry) :
    ∀ (cs : List String) (db : HSDB), dbLookup db X = some e →
      dbLookup (bulkInsert db cs) X = some e := by
  intro cs
  induction cs with
  | nil => intro db h; exact h
  | cons c cs' ih =>
    intro db h
    show dbLookup (bulkInsert (if (dbLookup db c).isSome then db else db ++ [(c, defaultEntry)]) cs') X = some e
    by_cases hc : (dbLookup db c).isSome
    · simp only [hc, if_true]
      exact ih db h
    · simp only [hc, if_false]
      exact ih _ (dbLookup_append_left X e _ db h)

/-! ## Claims about the progress ledger (C2) -/

/-- C2 (counterexample): starting from an empty ledger, inserting code
61091000 and then marking its export and its import completed (the
worker's per-mode marks, with no mark_completed call) reaches a state
whose row has both mode statuses completed while the overall status is
still pending — refuting that overall_status is completed if and only
if both mode statuses are completed. -/
theorem c2_mode_iff_counterexample :
    ReachableDB c2DB
    ∧ (dbLookup c2DB "61091000").map LedgerEntry.export_status = some "completed"
    ∧ (dbLookup c2DB "61091000").map LedgerEntry.import_status = some "completed"
    ∧ (dbLookup c2DB "61091000").map LedgerEntry.status ≠ some "completed" := by
  refine ⟨⟨[LOp.bulkIns ["61091000"], LOp.markExportCompleted "61091000" 10,
    LOp.markImportCompleted "61091000" 20], rfl⟩, ?_, ?_, ?_⟩ <;> decide

/-- C2 (amended): marking export completed changes no code's
import_status; mark_completed leaves the target row with overall and
both mode statuses completed; and the overall status only becomes
completed through mark_completed. The biconditional of the original
claim fails: both mode statuses completed do not force the overall
status to completed. -/
theorem c2_mode_independence_amended :
    (∀ (db : HSDB) (X Y : String) (t : Nat),
      (dbLookup (applyOp db (LOp.markExportCompleted X t)) Y).map LedgerEntry.import_status
        = (dbLookup db Y).map LedgerEntry.import_status)
    ∧ (∀ (db : HSDB) (X : String) (t : Nat) (e' : LedgerEntry),
      dbLookup (applyOp db (LOp.markCompleted X t)) X = some e' →
      e'.status = "completed" ∧ e'.export_status = "completed" ∧ e'.import_status = "completed")
    ∧ (∀ (db : HSDB) (op : LOp) (X : String) (e e' : LedgerEntry),
      dbLookup db X = some e → dbLookup (applyOp db op) X = some e' →
      e.status ≠ "completed" → e'.status = "completed" →
      ∃ t, op = LOp.markCompleted X t) := by
  refine ⟨?_, ?_, ?_⟩
  · intro db X Y t
    by_cases hXY : Y = X
    · subst hXY
      show (dbLookup (updateRow db Y (markExportCompletedE t)) Y).map _ = _
      rw [dbLookup_updateRow_self]
      cases dbLookup db Y <;> rfl
    · show (dbLookup (updateRow db X (markExportCompletedE t)) Y).map _ = _
      rw [dbLookup_updateRow_other X Y _ hXY]
  · intro db X t e' h
    rw [show applyOp db (LOp.markCompleted X t) = updateRow db X (markCompletedE t) from rfl,
      dbLookup_updateRow_self] at h
    cases he : dbLookup db X with
    | none => rw [he] at h; cases h
    | some e =>
      rw [he] at h
      cases h
      exact ⟨rfl, rfl, rfl⟩
  · intro db op X e e' he he' hne hcomp
    cases op with
    | bulkIns cs =>
      rw [show applyOp db (LOp.bulkIns cs) = bulkInsert db cs from rfl,
        dbLookup_bulkInsert X e cs db he] at he'
      cases he'
      exact absurd hcomp hne
    | markCompleted c t =>
      by_cases hc : c = X
      · exact ⟨t, by rw [hc]⟩
      · rw [show applyOp db (LOp.markCompleted c t) = updateRow db c (markCompletedE t) from rfl,
          dbLookup_updateRow_other c X _ (fun h => hc h.symm), he] at he'
        cases he'
        exact absurd hcomp hne
    | markExportCompleted c t =>
      by_cases hc : c = X
      · subst hc
        rw [show applyOp db (LOp.markExportCompleted c t) = updateRow db c (markExportCompletedE t) from rfl,
          dbLookup_updateRow_self, he] at he'
        cases he'
        exact absurd hcomp hne
      · rw [show applyOp db (LOp.markExportCompleted c t) = updateRow db c (markExportCompletedE t) from rfl,
          dbLookup_updateRow_other c X _ (fun h => hc h.symm), he] at he'
        cases he'
        exact absurd hcomp hne
    | markImportCompleted c t =>
      by_cases hc : c = X
      · subst hc
        rw [show applyOp db (LOp.markImportCompleted c t) = updateRow db c (markImportCompletedE t) from rfl,
          dbLookup_updateRow_self, he] at he'
        cases he'
        exact absurd hcomp hne
      · rw [show applyOp db (LOp.markImportCompleted c t) = updateRow db c (markImportCompletedE t) from rfl,
          dbLookup_updateRow_other c X _ (fun h => hc h.symm), he] at he'
        cases he'
        exact absurd hcomp hne
    | markFailed c err m =>
      by_cases hc : c = X
      · subst hc
        rw [show applyOp db (LOp.markFailed c err m) = updateRow db c (markFailedE err m) from rfl,
          dbLookup_updateRow_self, he] at he'
        cases he'
        cases m with
        | none => exact absurd hcomp (by simp [markFailedE])
        | some md =>
          cases md <;> exact absurd hcomp (by simpa [markFailedE] using hne)
      · rw [show applyOp db (LOp.markFailed c err m) = updateRow db c (markFailedE err m) from rfl,
          dbLookup_updateRow_other c X _ (fun h => hc h.symm), he] at he'
        cases he'
        exact absurd hcomp hne

/-- C2 amended, instantiated: the import status of the single row is
untouched by mark_export_completed, and the op that completed the
overall status of the c2 example row is identified as mark_completed. -/
theorem c2_mode_independence_amended_witness :
    (dbLookup (applyOp [("61091000", defaultEntry)] (LOp.markExportCompleted "61091000" 1)) "61091000").map LedgerEntry.import_status
      = (dbLookup [("61091000", defaultEntry)] "61091000").map LedgerEntry.import_status
    ∧ (markCompletedE 5 defaultEntry).status = "completed"
    ∧ (∃ t, LOp.markCompleted "61091000" 5 = LOp.markCompleted "61091000" t) :=
  ⟨c2_mode_independence_amended.1 [("61091000", defaultEntry)] "61091000" "61091000" 1,
   (c2_mode_independence_amended.2.1 [("61091000", defaultEntry)] "61091000" 5
     (markCompletedE 5 defaultEntry) (by decide)).1,
   c2_mode_independence_amended.2.2 [("61091000", defaultEntry)]
     (LOp.markCompleted "61091000" 5) "61091000" defaultEntry (markCompletedE 5 defaultEntry)
     (by decide) (by decide) (by decide) (by decide)⟩

/-! ## Claims about the chunk worker (C1, C9) -/

/-- C1 (counterexample): for a freshly inserted code whose export fetch
succeeds (transforms fine) and whose import fetch exhausts its retries,
the resulting ledger row has import_status still pending — not failed —
and error_count 0, not incremented, refuting the claimed import_status
= failed with error_count incremented by one. -/
theorem c1_import_skip_counterexample :
    (dbLookup c1DB "61091000").map LedgerEntry.export_status = some "completed"
    ∧ (dbLookup c1DB "61091000").map LedgerEntry.import_status = some "pending"
    ∧ (dbLookup c1DB "61091000").map LedgerEntry.import_status ≠ some "failed"
    ∧ (dbLookup c1DB "61091000").map LedgerEntry.error_count = some 0
    ∧ (dbLookup c1DB "61091000").map LedgerEntry.status = some "pending" := by
  refine ⟨?_, ?_, ?_, ?_, ?_⟩ <;> decide

/-- C1 (amended): when the export fetch succeeds (and its transforms
finish) and the import fetch exhausts its retries, process_chunk only
issues mark_export_completed: the row's export_status becomes
completed while its import_status, overall status and error_count are
all left unchanged (the import mode is skipped without a ledger
write, so a pending import stays pending rather than being marked
failed). -/
theorem c1_export_only_amended (db : HSDB) (code : String) (e : LedgerEntry) (now : Nat)
    (h : dbLookup db code = some e) :
    processItemOps code now true false Option.none Option.none = [LOp.markExportCompleted code now]
    ∧ (dbLookup (applyOps db (processItemOps code now true false Option.none Option.none)) code).map LedgerEntry.export_status = some "completed"
    ∧ (dbLookup (applyOps db (processItemOps code now true false Option.none Option.none)) code).map LedgerEntry.import_status = some e.import_status
    ∧ (dbLookup (applyOps db (processItemOps code now true false Option.none Option.none)) code).map LedgerEntry.status = some e.status
    ∧ (dbLookup (applyOps db (processItemOps code now true false Option.none Option.none)) code).map LedgerEntry.error_count = some e.error_count := by
  have hops : processItemOps code now true false Option.none Option.none
      = [LOp.markExportCompleted code now] := rfl
  refine ⟨hops, ?_, ?_, ?_, ?_⟩ <;>
    · rw [hops]
      show (dbLookup (updateRow db code (markExportCompletedE now)) code).map _ = _
      rw [dbLookup_updateRow_self, h]
      rfl

/-- C1 amended, instantiated on a fresh pending row. -/
theorem c1_export_only_amended_witness :
    processItemOps "61091000" 7 true false Option.none Option.none = [LOp.markExportCompleted "61091000" 7]
    ∧ (dbLookup (applyOps [("61091000", defaultEntry)] (processItemOps "61091000" 7 true false Option.none Option.none)) "61091000").map LedgerEntry.export_status = some "completed"
    ∧ (dbLookup (applyOps [("61091000", defaultEntry)] (processItemOps "61091000" 7 true false Option.none Option.none)) "61091000").map LedgerEntry.import_status = some defaultEntry.import_status
    ∧ (dbLookup (applyOps [("61091000", defaultEntry)] (processItemOps "61091000" 7 true false Option.none Option.none)) "61091000").map LedgerEntry.status = some defaultEntry.status
    ∧ (dbLookup (applyOps [("61091000", defaultEntry)] (processItemOps "61091000" 7 true false Option.none Option.none)) "61091000").map LedgerEntry.error_count = some defaultEntry.error_count :=
  c1_export_only_amended [("61091000", defaultEntry)] "61091000" defaultEntry 7 (by decide)

/-- C9: when both scrapes succeed and the transform chain raises for
one mode — whichever of export or import it is — process_chunk records
mark_failed for that mode and then still calls mark_completed, leaving
the row with overall, export and import statuses all completed; only
error_count (incremented once) and last_error (the transform error)
retain evidence of the failure. -/
theorem c9_mark_completed_overwrites_failure (db : HSDB) (code : String) (e : LedgerEntry)
    (now : Nat) (err : String) (h : dbLookup db code = some e) :
    (processItemOps code now true true (some err) Option.none
      = [LOp.markFailed code err (some TradeMode.export), LOp.markImportCompleted code now,
         LOp.markCompleted code now]
    ∧ (dbLookup (applyOps db (processItemOps code now true true (some err) Option.none)) code).map LedgerEntry.status = some "completed"
    ∧ (dbLookup (applyOps db (processItemOps code now true true (some err) Option.none)) code).map LedgerEntry.export_status = some "completed"
    ∧ (dbLookup (applyOps db (processItemOps code now true true (some err) Option.none)) code).map LedgerEntry.import_status = some "completed"
    ∧ (dbLookup (applyOps db (processItemOps code now true true (some err) Option.none)) code).map LedgerEntry.error_count = some (e.error_count + 1)
    ∧ (dbLookup (applyOps db (processItemOps code now true true (some err) Option.none)) code).map LedgerEntry.last_error = some (some err))
    ∧ (processItemOps code now true true Option.none (some err)
      = [LOp.markExportCompleted code now, LOp.markFailed code err (some TradeMode.importMode),
         LOp.markCompleted code now]
    ∧ (dbLookup (applyOps db (processItemOps code now true true Option.none (some err))) code).map LedgerEntry.status = some "completed"
    ∧ (dbLookup (applyOps db (processItemOps code now true true Option.none (some err))) code).map LedgerEntry.export_status = some "completed"
    ∧ (dbLookup (applyOps db (processItemOps code now true true Option.none (some err))) code).map LedgerEntry.import_status = some "completed"
    ∧ (dbLookup (applyOps db (processItemOps code now true true Option.none (some err))) code).map LedgerEntry.error_count = some (e.error_count + 1)
    ∧ (dbLookup (applyOps db (processItemOps code now true true Option.none (some err))) code).map LedgerEntry.last_error = some (some err)) := by
  have hopsE : processItemOps code now true true (some err) Option.none
      = [LOp.markFailed code err (some TradeMode.export), LOp.markImportCompleted code now,
         LOp.markCompleted code now] := rfl
  have hopsI : processItemOps code now true true Option.none (some err)
      = [LOp.markExportCompleted code now, LOp.markFailed code err (some TradeMode.importMode),
         LOp.markCompleted code now] := rfl
  constructor
  · refine ⟨hopsE, ?_, ?_, ?_, ?_, ?_⟩ <;>
      · rw [hopsE]
        show (dbLookup (updateRow (updateRow (updateRow db code
          (markFailedE err (some TradeMode.export))) code (markImportCompletedE now)) code
          (markCompletedE now)) code).map _ = _
        rw [dbLookup_updateRow_self, dbLookup_updateRow_self, dbLookup_updateRow_self, h]
        rfl
  · refine ⟨hopsI, ?_, ?_, ?_, ?_, ?_⟩ <;>
      · rw [hopsI]
        show (dbLookup (updateRow (updateRow (updateRow db code (markExportCompletedE now)) code
          (markFailedE err (some TradeMode.importMode))) code (markCompletedE now)) code).map _ = _
        rw [dbLookup_updateRow_self, dbLookup_updateRow_self, dbLookup_updateRow_self, h]
        rfl

/-- C9, instantiated on a fresh pending row with a transform error,
in both directions: the export transform failing and the import
transform failing. -/
theorem c9_mark_completed_overwrites_failure_witness :
    (processItemOps "61091000" 7 true true (some "SchemaError") Option.none
      = [LOp.markFailed "61091000" "SchemaError" (some TradeMode.export), LOp.markImportCompleted "61091000" 7,
         LOp.markCompleted "61091000" 7]
    ∧ (dbLookup (applyOps [("61091000", defaultEntry)] (processItemOps "61091000" 7 true true (some "SchemaError") Option.none)) "61091000").map LedgerEntry.status = some "completed"
    ∧ (dbLookup (applyOps [("61091000", defaultEntry)] (processItemOps "61091000" 7 true true (some "SchemaError") Option.none)) "61091000").map LedgerEntry.export_status = some "completed"
    ∧ (dbLookup (applyOps [("61091000", defaultEntry)] (processItemOps "61091000" 7 true true (some "SchemaError") Option.none)) "61091000").map LedgerEntry.import_status = some "completed"
    ∧ (dbLookup (applyOps [("61091000", defaultEntry)] (processItemOps "61091000" 7 true true (some "SchemaError") Option.none)) "61091000").map LedgerEntry.error_count = some (defaultEntry.error_count + 1)
    ∧ (dbLookup (applyOps [("61091000", defaultEntry)] (processItemOps "61091000" 7 true true (some "SchemaError") Option.none)) "61091000").map LedgerEntry.last_error = some (some "SchemaError"))
    ∧ (processItemOps "61091000" 7 true true Option.none (some "SchemaError")
      = [LOp.markExportCompleted "61091000" 7, LOp.markFailed "61091000" "SchemaError" (some TradeMode.importMode),
         LOp.markCompleted "61091000" 7]
    ∧ (dbLookup (applyOps [("61091000", defaultEntry)] (processItemOps "61091000" 7 true true Option.none (some "SchemaError"))) "61091000").map LedgerEntry.status = some "completed"
    ∧ (dbLookup (applyOps [("61091000", defaultEntry)] (processItemOps "61091000" 7 true true Option.none (some "SchemaError"))) "61091000").map LedgerEntry.export_status = some "completed"
    ∧ (dbLookup (applyOps [("61091000", defaultEntry)] (processItemOps "61091000" 7 true true Option.none (some "SchemaError"))) "61091000").map LedgerEntry.import_status = some "completed"
    ∧ (dbLookup (applyOps [("61091000", defaultEntry)] (processItemOps "61091000" 7 true true Option.none (some "SchemaError"))) "61091000").map LedgerEntry.error_count = some (defaultEntry.error_count + 1)
    ∧ (dbLookup (applyOps [("61091000", defaultEntry)] (processItemOps "61091000" 7 true true Option.none (some "SchemaError"))) "61091000").map LedgerEntry.last_error = some (some "SchemaError")) :=
  c9_mark_completed_overwrites_failure [("61091000", defaultEntry)] "61091000" defaultEntry 7
    "SchemaError" (by decide)

/-! ## Claims about the transform pipeline (C10, C3) -/

/-- C10: every raw payload accepted by the Process stage — whatever
trade mode its metadata carries — yields a processed record whose
trade_type is the constant EXPORT and whose frequency is the constant
ANNUAL; import-mode payloads are stamped EXPORT. -/
theorem c10_constant_trade_type (rid ts : String) (raw p : PyVal)
    (h : process_raw_payload rid ts raw = Except.ok p) :
    pv_get p "trade_type" = some (PyVal.vstr "EXPORT")
    ∧ pv_get p "frequency" = some (PyVal.vstr "ANNUAL") := by
  unfold process_raw_payload at h
  simp only [bind, Except.bind] at h
  repeat' split at h
  all_goals try (cases h)
  all_goals exact ⟨rfl, rfl⟩

/-- C10 on a concrete import-mode payload. -/
theorem c10_constant_trade_type_witness :
    pv_get c10Processed "trade_type" = some (PyVal.vstr "EXPORT")
    ∧ pv_get c10Processed "frequency" = some (PyVal.vstr "ANNUAL") :=
  c10_constant_trade_type "R" "T" c10Raw c10Processed (by rfl)

/-- C3: on the scenario payload (code 61091000, export mode, two
years, three partner rows each valued 12,345.6) the Process stage
succeeds and yields the six cleaned values 12345.6, with hs hierarchy
chapter 61 and heading 6109 — but feeding the resulting ProcessedRecord
to Normalize emits an empty row list, not the claimed 6 rows: the
normalizer reads the key data_by_year, which the processed record does
not carry (the Process stage writes the year blocks under years). -/
theorem c3_normalize_emits_no_rows :
    (process_raw_payload "RID" "TS" c3Raw).map collectValues
      = Except.ok (List.replicate 6 (PyVal.vstr "12345.6"))
    ∧ (process_raw_payload "RID" "TS" c3Raw).map (fun p => pv_get p "hs")
      = Except.ok (some (PyVal.vdict [("hs8", .vstr "61091000"), ("sub_heading", .vstr "610910"),
          ("heading", .vstr "6109"), ("chapter", .vstr "61")]))
    ∧ (process_raw_payload "RID" "TS" c3Raw).bind normalize_processed_payload = Except.ok []
    ∧ ((process_raw_payload "RID" "TS" c3Raw).bind normalize_processed_payload).map List.length
      ≠ Except.ok 6 := by
  refine ⟨rfl, rfl, rfl, ?_⟩
  intro hcontra
  rw [show ((process_raw_payload "RID" "TS" c3Raw).bind normalize_processed_payload).map List.length
    = Except.ok 0 from rfl] at hcontra
  cases hcontra

/-! ## Claims about the retry manager (C4, C5) -/

theorem retryAux_all_fail {E A : Type} (f : Nat → Except E A) (m : Nat) (eN : E)
    (hm : f m = Except.error eN) :
    ∀ (fuel attempt : Nat) (lastExc : Option E), attempt + fuel = m + 1 → attempt ≤ m →
      (∀ k, attempt ≤ k → k ≤ m → ∃ e, f k = Except.error e) →
      retryAux f m lastExc attempt fuel = (Except.error (some eN), fuel) := by
  intro fuel
  induction fuel with
  | zero => intro attempt lastExc hsum hle hfail; omega
  | succ fuel ih =>
    intro attempt lastExc hsum hle hfail
    obtain ⟨e, he⟩ := hfail attempt le_rfl hle
    by_cases hat : attempt = m
    · subst hat
      have hf0 : fuel = 0 := by omega
      subst hf0
      rw [hm] at he
      simp only [retryAux, hm]
      simp [← he]
    · have hrec := ih (attempt + 1) (some e) (by omega) (by omega)
        (fun k hk1 hk2 => hfail k (by omega) hk2)
      simp only [retryAux, he, hat, if_false]
      simp [hrec]

/-- C4: an operation failing on every attempt is invoked exactly
max_retries + 1 times by the retry wrappers, which then re-raise the
last error rather than swallow it; the loop is a total function, so it
never retries indefinitely. -/
theorem c4_retry_exhausts_retries {E A : Type} (f : Nat → Except E A) (m : Nat)
    (hf : ∀ k, k ≤ m → ∃ e, f k = Except.error e) :
    (retry_sync f m).2 = m + 1 ∧ (retry_async f m).2 = m + 1
    ∧ ∀ eN, f m = Except.error eN →
        (retry_sync f m).1 = Except.error (some eN)
        ∧ (retry_async f m).1 = Except.error (some eN) := by
  obtain ⟨eL, heL⟩ := hf m le_rfl
  have hmain := retryAux_all_fail f m eL heL (m + 1) 0 Option.none (by omega) (by omega)
    (fun k _ hk => hf k hk)
  refine ⟨?_, ?_, ?_⟩
  · show (retryAux f m Option.none 0 (m + 1)).2 = m + 1
    rw [hmain]
  · show (retryAux f m Option.none 0 (m + 1)).2 = m + 1
    rw [hmain]
  · intro eN heN
    rw [heN] at heL
    cases heL
    constructor
    · show (retryAux f m Option.none 0 (m + 1)).1 = _
      rw [hmain]
    · show (retryAux f m Option.none 0 (m + 1)).1 = _
      rw [hmain]

/-- C4 on the always-failing operation returning its attempt index as
the error, with 2 retries. -/
theorem c4_retry_exhausts_retries_witness :
    (retry_sync (fun k => (Except.error k : Except Nat Unit)) 2).2 = 3
    ∧ (retry_async (fun k => (Except.error k : Except Nat Unit)) 2).2 = 3
    ∧ ((retry_sync (fun k => (Except.error k : Except Nat Unit)) 2).1 = Except.error (some 2)
       ∧ (retry_async (fun k => (Except.error k : Except Nat Unit)) 2).1 = Except.error (some 2)) := by
  have h := c4_retry_exhausts_retries (fun k => (Except.error k : Except Nat Unit)) 2
    (fun k _ => ⟨k, rfl⟩)
  exact ⟨h.1, h.2.1, h.2.2 2 rfl⟩

/-- C5 (counterexample): for the jittered configuration with
initial_delay 0 the pre-jitter delay is 0 and the returned delay is 0,
which does not lie in the half-open interval [0.5, 1.5) times 0 — that
interval is empty — so the claim fails for this configuration (at
attempt 0 with random draw 0). -/
theorem c5_jitter_interval_counterexample :
    ¬ ((1/2 : ℚ) * min (c5cfg.initial_delay * c5cfg.exponential_base ^ (0:Nat)) c5cfg.max_delay
         ≤ get_delay c5cfg 0 0
       ∧ get_delay c5cfg 0 0
         < (3/2 : ℚ) * min (c5cfg.initial_delay * c5cfg.exponential_base ^ (0:Nat)) c5cfg.max_delay) := by
  intro hcontra
  have h2 := hcontra.2
  norm_num [get_delay, c5cfg] at h2

/-- C5 (amended): the pre-jitter delay equals
min(initial_delay * exponential_base ^ k, max_delay) — it is returned
unchanged when jitter is off — and when jitter is on and that value is
positive, the returned delay lies in [0.5, 1.5) times it. (For a zero
or negative pre-jitter delay the half-open interval claim fails, as
the counterexample shows.) -/
theorem c5_delay_formula_amended (cfg : RetryConfig) (k : Nat) (r : ℚ)
    (hr0 : 0 ≤ r) (hr1 : r < 1) :
    (cfg.jitter = false →
      get_delay cfg k r = min (cfg.initial_delay * cfg.exponential_base ^ k) cfg.max_delay)
    ∧ (cfg.jitter = true →
      0 < min (cfg.initial_delay * cfg.exponential_base ^ k) cfg.max_delay →
      (1/2 : ℚ) * min (cfg.initial_delay * cfg.exponential_base ^ k) cfg.max_delay
        ≤ get_delay cfg k r
      ∧ get_delay cfg k r
        < (3/2 : ℚ) * min (cfg.initial_delay * cfg.exponential_base ^ k) cfg.max_delay) := by
  constructor
  · intro hj
    simp [get_delay, hj]
  · intro hj hpos
    simp only [get_delay, hj, if_true]
    constructor
    · nlinarith [hpos, hr0]
    · nlinarith [hpos, hr1]

/-- C5 amended on the scraping preset (initial delay 2, cap 30,
jitter on) at attempt 0 with random draw 0. -/
theorem c5_delay_formula_amended_witness :
    (1/2 : ℚ) * min (c5wcfg.initial_delay * c5wcfg.exponential_base ^ (0:Nat)) c5wcfg.max_delay
      ≤ get_delay c5wcfg 0 0
    ∧ get_delay c5wcfg 0 0
      < (3/2 : ℚ) * min (c5wcfg.initial_delay * c5wcfg.exponential_base ^ (0:Nat)) c5wcfg.max_delay :=
  (c5_delay_formula_amended c5wcfg 0 0 (by norm_num) (by norm_num)).2 rfl (by norm_num [c5wcfg])

/-! ## Claims about the chunker (C6) -/

theorem chunksNat_flatten {α : Type} (t : Nat) (l : List α) :
    (chunksNat (t + 1) l).flatten = l := by
  suffices H : ∀ n (l : List α), l.length = n → (chunksNat (t + 1) l).flatten = l from
    H l.length l rfl
  intro n
  induction n using Nat.strong_induction_on with
  | _ n ih =>
    intro l hl
    cases l with
    | nil => simp [chunksNat]
    | cons x xs =>
      rw [chunksNat]
      simp only [List.flatten_cons]
      have hdrop : List.drop (t + 1 - 1) xs = List.drop (t + 1) (x :: xs) := rfl
      rw [ih (List.drop (t + 1 - 1) xs).length
        (by simp only [List.length_cons] at hl; simp [List.length_drop]; omega) _ rfl,
        hdrop, List.take_append_drop]

theorem chunksNat_length {α : Type} (t : Nat) (l : List α) :
    (chunksNat (t + 1) l).length = (l.length + t) / (t + 1) := by
  suffices H : ∀ n (l : List α), l.length = n →
      (chunksNat (t + 1) l).length = (l.length + t) / (t + 1) from H l.length l rfl
  intro n
  induction n using Nat.strong_induction_on with
  | _ n ih =>
    intro l hl
    cases l with
    | nil => simp [chunksNat, Nat.div_eq_of_lt (by omega : t < t + 1)]
    | cons x xs =>
      rw [chunksNat]
      simp only [List.length_cons]
      rw [ih (List.drop (t + 1 - 1) xs).length
        (by simp only [List.length_cons] at hl; simp [List.length_drop]; omega) _ rfl]
      simp only [List.length_drop]
      have hR : xs.length + 1 + t = xs.length + (t + 1) := by omega
      rw [hR, Nat.add_div_right _ (by omega : 0 < t + 1)]
      rcases le_total t xs.length with hc | hc
      · have : xs.length - (t + 1 - 1) + t = xs.length := by omega
        rw [this]
      · have h1 : xs.length - (t + 1 - 1) = 0 := by omega
        rw [h1]
        rw [Nat.div_eq_of_lt (by omega : 0 + t < t + 1),
          Nat.div_eq_of_lt (by omega : xs.length < t + 1)]

theorem chunksNat_sizes {α : Type} (t : Nat) (l : List α) :
    ∀ c ∈ chunksNat (t + 1) l, 0 < c.length ∧ c.length ≤ t + 1 := by
  suffices H : ∀ n (l : List α), l.length = n →
      ∀ c ∈ chunksNat (t + 1) l, 0 < c.length ∧ c.length ≤ t + 1 from H l.length l rfl
  intro n
  induction n using Nat.strong_induction_on with
  | _ n ih =>
    intro l hl c hc
    cases l with
    | nil => simp [chunksNat] at hc
    | cons x xs =>
      rw [chunksNat] at hc
      cases hc with
      | head => simp [List.length_take]
      | tail _ hmem =>
        exact ih (List.drop (t + 1 - 1) xs).length
          (by simp only [List.length_cons] at hl; simp [List.length_drop]; omega) _ rfl c hmem

theorem chunksNat_nil_iff {α : Type} (t : Nat) (l : List α) :
    chunksNat (t + 1) l = [] ↔ l = [] := by
  cases l with
  | nil => simp [chunksNat]
  | cons x xs => rw [chunksNat]; simp

theorem chunksNat_dropLast {α : Type} (t : Nat) (l : List α) :
    ∀ c ∈ (chunksNat (t + 1) l).dropLast, c.length = t + 1 := by
  suffices H : ∀ n (l : List α), l.length = n →
      ∀ c ∈ (chunksNat (t + 1) l).dropLast, c.length = t + 1 from H l.length l rfl
  intro n
  induction n using Nat.strong_induction_on with
  | _ n ih =>
    intro l hl c hc
    cases l with
    | nil => simp [chunksNat] at hc
    | cons x xs =>
      rw [chunksNat] at hc
      cases hR : chunksNat (t + 1) (List.drop (t + 1 - 1) xs) with
      | nil => rw [hR] at hc; simp at hc
      | cons r rs =>
        rw [hR, List.dropLast_cons₂] at hc
        cases hc with
        | head =>
          have hne : List.drop (t + 1 - 1) xs ≠ [] := by
            intro hd
            rw [hd] at hR
            simp [chunksNat] at hR
          have hlen : t + 1 - 1 < xs.length := by
            by_contra hcon
            exact hne (List.drop_eq_nil_of_le (by omega))
          simp [List.length_take]
          omega
        | tail _ hmem =>
          have := ih (List.drop (t + 1 - 1) xs).length
            (by simp only [List.length_cons] at hl; simp [List.length_drop]; omega) _ rfl c
          rw [hR] at this
          exact this hmem

/-- C6: for a positive chunk size S, chunk_list returns the ceiling of
N / S chunks whose concatenation is the input, each chunk nonempty and
of size S except possibly the last; for S ≤ 0 it fails with the
invalid-configuration error. -/
theorem c6_chunk_list_spec {α : Type} (data : List α) (S : Int) :
    (0 < S →
      chunk_list data S = Except.ok (chunksNat S.toNat data)
      ∧ (chunksNat S.toNat data).length = (data.length + S.toNat - 1) / S.toNat
      ∧ (chunksNat S.toNat data).flatten = data
      ∧ (∀ c ∈ chunksNat S.toNat data, 0 < c.length ∧ c.length ≤ S.toNat)
      ∧ (∀ c ∈ (chunksNat S.toNat data).dropLast, c.length = S.toNat))
    ∧ (S ≤ 0 → chunk_list data S = Except.error "chunk_size must be > 0") := by
  constructor
  · intro hS
    obtain ⟨t, ht⟩ : ∃ t, S.toNat = t + 1 := ⟨S.toNat - 1, by omega⟩
    refine ⟨by simp [chunk_list, not_le.mpr hS], ?_, ?_, ?_, ?_⟩ <;> rw [ht]
    · rw [chunksNat_length]
      have : data.length + (t + 1) - 1 = data.length + t := by omega
      rw [this]
    · exact chunksNat_flatten t data
    · exact chunksNat_sizes t data
    · exact chunksNat_dropLast t data
  · intro hS
    simp [chunk_list, hS]

/-- C6 on a 5-element list with chunk size 2 and on chunk size -1. -/
theorem c6_chunk_list_spec_witness :
    chunk_list [0, 1, 2, 3, 4] (2 : Int) = Except.ok (chunksNat 2 [0, 1, 2, 3, 4])
    ∧ (chunksNat 2 [0, 1, 2, 3, 4]).length = (5 + 2 - 1) / 2
    ∧ (chunksNat 2 [0, 1, 2, 3, 4]).flatten = [0, 1, 2, 3, 4]
    ∧ chunk_list [0, 1, 2, 3] (-1 : Int) = Except.error "chunk_size must be > 0" := by
  have h := (c6_chunk_list_spec [0, 1, 2, 3, 4] (2 : Int)).1 (by norm_num)
  have h2 := (c6_chunk_list_spec [0, 1, 2, 3] (-1 : Int)).2 (by norm_num)
  exact ⟨h.1, h.2.1, h.2.2.1, h2⟩

/-! ## Claims about the browser pool (C7) -/

theorem pool_sum_invariant (n : Nat) (s : PoolState) (h : PoolReachable n s) :
    s.created = n ∧ s.leased + s.available = n := by
  induction h with
  | init => exact ⟨rfl, by simp [initPool]⟩
  | step hr hstep ih =>
    cases hstep with
    | acquire hav => exact ⟨ih.1, by simp; omega⟩
    | release hle => exact ⟨ih.1, by simp; omega⟩
    | timeout hav => exact ih

/-- C7: every pool state reachable from the initialized pool keeps
exactly pool_size created resources and at most pool_size outstanding
leases; an acquire cannot step while the available queue is empty (it
blocks), becomes enabled again after any release, and a get_browser
whose timeout expires on an empty queue fails with the pool-exhausted
timeout error. -/
theorem c7_pool_bounds (n : Nat) (s : PoolState) (h : PoolReachable n s) :
    s.created = n
    ∧ s.leased + s.available = n
    ∧ s.leased ≤ n
    ∧ (s.available = 0 → ¬ ∃ s', PoolStep n s PoolEvent.acquire s')
    ∧ (∀ s', PoolStep n s PoolEvent.release s' → ∃ s'', PoolStep n s' PoolEvent.acquire s'')
    ∧ (s.available = 0 → get_browser s = Except.error "TimeoutError: pool exhausted") := by
  obtain ⟨h1, h2⟩ := pool_sum_invariant n s h
  refine ⟨h1, h2, by omega, ?_, ?_, ?_⟩
  · rintro hav ⟨s', hstep⟩
    cases hstep with
    | acquire hpos => omega
  · intro s' hstep
    cases hstep with
    | release hpos => exact ⟨_, PoolStep.acquire _ (by simp)⟩
  · intro hav
    simp [get_browser, hav]

/-- C7 at the freshly initialized pool of size 2. -/
theorem c7_pool_bounds_witness :
    (initPool 2).created = 2
    ∧ (initPool 2).leased + (initPool 2).available = 2
    ∧ (initPool 2).leased ≤ 2 := by
  have h := c7_pool_bounds 2 (initPool 2) PoolReachable.init
  exact ⟨h.1, h.2.1, h.2.2.1⟩

/-! ## Claims about the request throttler (C8) -/

theorem runCalls_spacing_aux (dmin : ℚ) (h : String) :
    ∀ (cs : List ThrottleCall) (lockFree : ℚ) (lastMap : String → ℚ),
      (∀ c ∈ cs, dmin ≤ c.required) →
      (∀ x, lastMap x ≤ lockFree) →
      gapsOK dmin h (some (lastMap h)) (runCalls cs lockFree lastMap) := by
  intro cs
  induction cs with
  | nil =>
    intro lockFree lastMap _ _
    simp [runCalls, gapsOK]
  | cons c rest ih =>
    intro lockFree lastMap hreq hinv
    have hreqc : dmin ≤ c.required := hreq c (List.mem_cons_self c rest)
    simp only [runCalls]
    set start := if c.time ≤ lockFree then lockFree else c.time with hstart_def
    set ret := if start - lastMap c.host < c.required
      then start + (c.required - (start - lastMap c.host)) else start with hret_def
    have hlock_start : lockFree ≤ start := by
      rw [hstart_def]
      split
      · exact le_rfl
      · linarith [lt_of_not_le (by assumption : ¬ c.time ≤ lockFree)]
    have hstart_ret : start ≤ ret := by
      rw [hret_def]
      split
      · linarith [sub_pos.mpr (by assumption : start - lastMap c.host < c.required)]
      · exact le_rfl
    have hge : lastMap c.host + c.required ≤ ret := by
      rw [hret_def]
      split
      · have : start + (c.required - (start - lastMap c.host))
            = lastMap c.host + c.required := by ring
        rw [this]
      · linarith [le_of_not_lt (by assumption : ¬ start - lastMap c.host < c.required)]
    have hinv' : ∀ x, updMap lastMap c.host ret x ≤ ret := by
      intro x
      rw [updMap]
      split
      · exact le_rfl
      · exact le_trans (hinv x) (le_trans hlock_start hstart_ret)
    have hrest := ih ret (updMap lastMap c.host ret)
      (fun d hd => hreq d (List.mem_cons_of_mem c hd)) hinv'
    by_cases hh : c.host = h
    · rw [gapsOK, if_pos hh]
      refine ⟨?_, ?_⟩
      · rw [← hh]
        linarith
      · have hupd : updMap lastMap c.host ret h = ret := by
          rw [updMap, if_pos hh.symm]
        rw [hupd] at hrest
        exact hrest
    · rw [gapsOK, if_neg hh]
      have hupd : updMap lastMap c.host ret h = lastMap h := by
        rw [updMap, if_neg (fun he => hh he.symm)]
      rw [hupd] at hrest
      exact hrest

theorem gapsOK_weaken (dmin : ℚ) (h : String) :
    ∀ (l : List (String × ℚ)) (p : ℚ),
      gapsOK dmin h (some p) l → gapsOK dmin h Option.none l := by
  intro l
  induction l with
  | nil => intro p _; trivial
  | cons x rest ih =>
    intro p hg
    obtain ⟨x1, x2⟩ := x
    by_cases hx : x1 = h
    · simp only [gapsOK, if_pos hx] at hg ⊢
      exact ⟨trivial, hg.2⟩
    · simp only [gapsOK, if_neg hx] at hg ⊢
      exact ih p hg

/-- C8 (amended): along any serialized trace of wait calls whose
random draws are at least min_delay, consecutive returns for any one
host are at least min_delay apart; but hosts are not independent —
the lock is held across the throttle sleep, so host B's wait issued
during host A's sleep returns at 15 instead of the 12 it returns when
A's calls are absent. -/
theorem c8_wait_spacing_amended (dmin : ℚ) (cs : List ThrottleCall) (h : String)
    (hreq : ∀ c ∈ cs, dmin ≤ c.required) :
    gapsOK dmin h Option.none (runCalls cs 0 (fun _ => 0))
    ∧ runCalls c8Calls 0 (fun _ => 0) = [("A", (10 : ℚ)), ("A", 15), ("B", 15)]
    ∧ runCalls c8CallsB 0 (fun _ => 0) = [("B", (12 : ℚ))] := by
  refine ⟨?_, ?_, ?_⟩
  · exact gapsOK_weaken dmin h _ 0
      (runCalls_spacing_aux dmin h cs 0 (fun _ => 0) hreq (fun x => le_rfl))
  · have hBA : ¬ ("B" : String) = "A" := by decide
    norm_num [runCalls, c8Calls, updMap, hBA]
  · norm_num [runCalls, c8CallsB, updMap]

/-- C8 amended, on host A of the concrete trace with min_delay 1. -/
theorem c8_wait_spacing_amended_witness :
    gapsOK 1 "A" Option.none (runCalls c8Calls 0 (fun _ => 0)) := by
  refine (c8_wait_spacing_amended 1 c8Calls "A" ?_).1
  intro c hc
  simp only [c8Calls, List.mem_cons, List.not_mem_nil, or_false] at hc
  rcases hc with rfl | rfl | rfl <;> norm_num

/-- C8 (counterexample): host B's single wait returns at 12 when host
A is silent, but at 15 when it arrives during host A's throttle sleep
— the single lock held across the sleep means one host's throttling
delays another host's wait, refuting the claimed independence. -/
theorem c8_host_independence_counterexample :
    runCalls c8Calls 0 (fun _ => 0) = [("A", (10 : ℚ)), ("A", 15), ("B", 15)]
    ∧ runCalls c8CallsB 0 (fun _ => 0) = [("B", (12 : ℚ))]
    ∧ (15 : ℚ) ≠ 12 := by
  refine ⟨?_, ?_, by norm_num⟩
  · have hBA : ¬ ("B" : String) = "A" := by decide
    norm_num [runCalls, c8Calls, updMap, hBA]
  · norm_num [runCalls, c8CallsB, updMap]
